import Mathlib

/-!
# Verification of the nbackend dual-mode persistence and workflow layer

Shallow embedding of the Express server (`src/unnamed/part_001`) of the
nbackend repository: the in-process fallback store (`localDB`), the remote
document store (modelled as per-collection lists), the marketplace
request-approval workflow, and the analytics aggregation helpers
(`parseRangeDays`, `buildDateBuckets`, `getItemAmount`, the user-growth and
revenue computations of `GET /api/analytics`).

Conventions of the embedding:
* Timestamps are integers (milliseconds since the epoch); `Date.now()` and
  `new Date()` taken at the same handler invocation are modelled by one
  `now` parameter.
* Calendar days are integers (days since the epoch); `toDateKey` is floor
  division of a timestamp by `msPerDay` (the server is modelled at UTC,
  where `setHours(0,0,0,0)` truncation and `toISOString` day keys agree).
* JavaScript values carried in dynamic payloads are the inductive
  `JSValue`; a JS string is embedded together with the rational value
  `Number.parseFloat` yields on it (`none` when the parse is `NaN`).
* `uuidv4()` results are `freshId` parameters; absent request-body fields
  are `Option` arguments.
-/

/-- A JavaScript value as it occurs in the dynamic `data` payloads of the
server. A finite number is a rational; `NaN` and the infinities are their
own constructors because `Number.isFinite` rejects them while truthiness
treats them differently. A string carries its text together with the result
of `Number.parseFloat` on it (`none` when that result is `NaN`). -/
inductive JSValue where
  | undefined
  | null
  | bool (b : Bool)
  | num (q : ℚ)
  | nan
  | infinite (neg : Bool)
  | str (text : String) (parseFloatResult : Option ℚ)
  | obj (fields : List (String × JSValue))

/-- JavaScript truthiness: `undefined`, `null`, `false`, `0`, `NaN` and the
empty string are falsy; every other value (objects included) is truthy. -/
def JSValue.truthy : JSValue → Bool
  | .undefined => false
  | .null => false
  | .bool b => b
  | .num q => q != 0
  | .nan => false
  | .infinite _ => true
  | .str t _ => t != ""
  | .obj _ => true

/-- Property access `v.key`: a lookup of the first binding in an object,
`undefined` on any non-object (the callers guard `null`/`undefined` with
`|| {}` before accessing). -/
def JSValue.getField (v : JSValue) (key : String) : JSValue :=
  match v with
  | .obj fields =>
      match fields.find? (fun p => p.1 == key) with
      | some p => p.2
      | none => .undefined
  | _ => .undefined

/-- Milliseconds per calendar day. -/
def msPerDay : Int := 86400000

/-- `toDateKey` (part_001 line 599): the UTC calendar day of a timestamp,
i.e. the `YYYY-MM-DD` prefix of `toISOString`, modelled as floor division
by `msPerDay`. -/
def toDateKey (t : Int) : Int := Int.fdiv t msPerDay

/-- `parseRangeDays` (part_001 lines 572–584): resolve the symbolic range
to a day count, defaulting to 7 for `"7d"` and anything unrecognized. -/
def parseRangeDays (range : String) : Nat :=
  match range with
  | "30d" => 30
  | "90d" => 90
  | "1y" => 365
  | _ => 7

/-- `buildDateBuckets` (part_001 lines 586–597): the list of calendar days
from `startDay` to `endDay` inclusive (both arguments already truncated to
day boundaries by `setHours(0,0,0,0)`), advancing one day per iteration
while `cursor <= endDate`. -/
def buildDateBuckets (startDay endDay : Int) : List Int :=
  if h : startDay ≤ endDay then
    startDay :: buildDateBuckets (startDay + 1) endDay
  else
    []
termination_by (endDay + 1 - startDay).toNat
decreasing_by simp_wf; omega

/-- `getItemAmount`'s candidate scan (part_001 lines 606–612): return the
first candidate that is a finite number, or a string whose
`Number.parseFloat` is finite; `0` when the list is exhausted. -/
def firstAmount : List JSValue → ℚ
  | [] => 0
  | v :: rest =>
      match v with
      | .num q => q
      | .str _ (some p) => p
      | _ => firstAmount rest

/-- `item?.data || {}` (part_001 line 604): a falsy payload is replaced by
the empty object before field access. -/
def dataOrEmpty (v : JSValue) : JSValue :=
  if v.truthy then v else .obj []

/-- `getItemAmount` (part_001 lines 603–614): extract a monetary amount
from an item's `data` payload with precedence `price`, `amount`, `total`,
`cost`. -/
def getItemAmount (data : JSValue) : ℚ :=
  let d := dataOrEmpty data
  firstAmount [d.getField "price", d.getField "amount",
               d.getField "total", d.getField "cost"]

/-- Specification-side description of one qualifying candidate: a finite
number yields its value, a numerically parseable string yields its parse,
nothing else qualifies. -/
def qualifiesAsAmount : JSValue → Option ℚ
  | .num q => some q
  | .str _ p => p
  | _ => none

/-! ## Data model

Records mirror the Mongoose schemas (part_001 lines 159–313) and the
in-process `localDB` record shapes produced by the degraded-mode handlers.
An `Option` field is absent when the source stores `null`/`undefined`. -/

/-- Embedded user profile (part_001 lines 301–308). -/
structure ProfileRec where
  mobile : String := ""
  age : String := ""
  gender : String := ""
  address : String := ""
  education : String := ""
  healthCondition : String := ""

/-- A user record (schema lines 293–313; `localDB.users` entries carry no
timestamps, so `createdAt` is optional). -/
structure UserRec where
  id : String
  name : String
  email : String
  password : String
  role : String := "user"
  profile : ProfileRec := {}
  createdAt : Option Int := none
  updatedAt : Option Int := none

/-- A meditation record (schema lines 159–173). -/
structure MeditationRec where
  id : String
  title : String
  duration : ℚ
  level : String := ""
  category : String := ""
  description : String := ""
  status : String := "Draft"
  thumbnailUrl : String := ""
  bannerUrl : String := ""
  audioUrl : String := ""
  createdAt : Int
  updatedAt : Int

/-- A marketplace request (schema lines 246–261 and the degraded creation
at lines 1535–1543). `type` and `data` come straight from the request body
and stay dynamic. -/
structure MarketplaceRequestRec where
  id : String
  type : JSValue
  data : JSValue
  status : String
  userId : String
  createdAt : Int
  updatedAt : Int
  approvedAt : Option Int := none
  approvedBy : Option String := none

/-- A marketplace item (schema lines 269–286 and the degraded creation at
lines 1598–1608). -/
structure MarketplaceItemRec where
  id : String
  requestId : String
  type : JSValue
  data : JSValue
  status : String
  approvedAt : Option Int := none
  approvedBy : Option String := none
  completedAt : Option Int := none
  completedBy : Option String := none
  createdAt : Int
  updatedAt : Int

/-- The Facade's mode, fixed for the process lifetime: `connected` when the
remote document store was reachable at startup (`mongoConnected = true`),
`degraded` otherwise. -/
inductive Mode where
  | connected
  | degraded
deriving DecidableEq

/-! ## Generic list-store operations

`findIndex` + single-slot assignment (degraded) and Mongoose
`findOneAndUpdate` (connected) both rewrite exactly the first record
matching a predicate; `deleteOne`/`splice` remove exactly the first match.
-/

/-- Replace the first element satisfying `p` by its image under `f`;
return that image together with the updated list (`none` and the original
list when nothing matches). -/
def updateFirst {α : Type} (p : α → Bool) (f : α → α) : List α → Option α × List α
  | [] => (none, [])
  | x :: xs =>
      if p x then (some (f x), f x :: xs)
      else
        let r := updateFirst p f xs
        (r.1, x :: r.2)

/-- Remove the first element satisfying `p`; `true` in the first component
iff something was removed. -/
def removeFirst {α : Type} (p : α → Bool) : List α → Bool × List α
  | [] => (false, [])
  | x :: xs =>
      if p x then (true, xs)
      else
        let r := removeFirst p xs
        (r.1, x :: r.2)

/-! ## Marketplace workflow handlers (part_001 lines 1486–1766)

Degraded-mode handlers operate on the `localDB.marketplaceRequests` /
`localDB.marketplaceItems` arrays; connected-mode handlers operate on the
Mongoose collections, modelled as insertion-ordered lists. -/

/-- Outcome of `POST /api/marketplace/requests`. -/
inductive SubmitOutcome where
  | validationError
  | created (r : MarketplaceRequestRec)

/-- The validation gate of `POST /api/marketplace/requests` (lines
1528–1532): `if (!type || !data)` rejects with a 400 before either backend
branch runs, so a falsy `type` or `data` fails in both modes. -/
def submitValidates (type data : JSValue) : Bool :=
  type.truthy && data.truthy

/-- `POST /api/marketplace/requests`, degraded branch (lines 1534–1549):
after the truthiness gate, a `pending` request is built with `uuidv4()` id
and `Date.now()` timestamps and unshifted onto
`localDB.marketplaceRequests`. `userId` is `req.body.userId || ""`. -/
def submitRequestDegraded (requests : List MarketplaceRequestRec)
    (type data : JSValue) (userIdBody : Option String)
    (now : Int) (freshId : String) :
    SubmitOutcome × List MarketplaceRequestRec :=
  if !submitValidates type data then (.validationError, requests)
  else
    let r : MarketplaceRequestRec :=
      { id := freshId, type := type, data := data, status := "pending",
        userId := userIdBody.getD "", createdAt := now, updatedAt := now }
    (.created r, r :: requests)

/-- `POST /api/marketplace/requests`, connected branch (lines 1552–1565):
the same gate, then a `MarketplaceRequest` document is saved; the schema
default supplies the `uuidv4()` id and `timestamps: true` supplies
`createdAt`/`updatedAt`. -/
def submitRequestConnected (requests : List MarketplaceRequestRec)
    (type data : JSValue) (userIdBody : Option String)
    (now : Int) (freshId : String) :
    SubmitOutcome × List MarketplaceRequestRec :=
  if !submitValidates type data then (.validationError, requests)
  else
    let r : MarketplaceRequestRec :=
      { id := freshId, type := type, data := data, status := "pending",
        userId := userIdBody.getD "", createdAt := now, updatedAt := now }
    (.created r, requests ++ [r])

/-- Result of `PUT /api/marketplace/requests/:id/approve`: the JSON-returned
request (`none` = 404 `Request not found`) and the two updated stores. -/
structure ApproveResult where
  outcome : Option MarketplaceRequestRec
  requests : List MarketplaceRequestRec
  items : List MarketplaceItemRec

/-- The request re-stamp applied by approval: status `"approved"`, fresh
`approvedAt`/`approvedBy`, fresh `updatedAt` (degraded sets `updatedAt:
Date.now()` explicitly at line 1590; connected gets the same effect from
Mongoose `timestamps: true` on `findOneAndUpdate`). -/
def approveStamp (now : Int) (approvedBy : String)
    (r : MarketplaceRequestRec) : MarketplaceRequestRec :=
  { r with status := "approved", approvedAt := some now,
           approvedBy := some approvedBy, updatedAt := now }

/-- The item materialized on first approval (degraded lines 1598–1608):
`uuidv4()` id, the (just re-stamped) request's `type` and `data`, status
`"active"`, the approval stamp, `Date.now()` timestamps. -/
def materializeItem (freshId : String) (now : Int)
    (r : MarketplaceRequestRec) : MarketplaceItemRec :=
  { id := freshId, requestId := r.id, type := r.type, data := r.data,
    status := "active", approvedAt := r.approvedAt,
    approvedBy := r.approvedBy, createdAt := now, updatedAt := now }

/-- `PUT /api/marketplace/requests/:id/approve`, degraded branch (lines
1574–1619): `findIndex` on `localDB.marketplaceRequests` (absent → 404);
the slot is overwritten with the approval stamp (`approvedBy` defaults to
`"admin"`); a new item is unshifted onto `localDB.marketplaceItems` only
when no existing item has this `requestId`. -/
def approveDegraded (requests : List MarketplaceRequestRec)
    (items : List MarketplaceItemRec) (reqId : String)
    (approvedByBody : Option String) (now : Int) (freshId : String) :
    ApproveResult :=
  let approvedBy := approvedByBody.getD "admin"
  let upd := updateFirst (fun r => r.id == reqId)
    (approveStamp now approvedBy) requests
  match upd.1 with
  | none => ⟨none, requests, items⟩
  | some r =>
      let items' :=
        match items.find? (fun it => it.requestId == reqId) with
        | some _ => items
        | none => materializeItem freshId now r :: items
      ⟨some r, upd.2, items'⟩

/-- `PUT /api/marketplace/requests/:id/approve`, connected branch (lines
1622–1656): `findOneAndUpdate({id}, {status, approvedAt, approvedBy})`
(absent → 404), then `findOne({requestId})`; a new item document (with the
schema/`timestamps` defaults; `request.approvedAt || new Date()` and
`request.approvedBy || "admin"` fall back to `now`/`"admin"`) is saved only
when none exists. -/
def approveConnected (requests : List MarketplaceRequestRec)
    (items : List MarketplaceItemRec) (reqId : String)
    (approvedByBody : Option String) (now : Int) (freshId : String) :
    ApproveResult :=
  let approvedBy := approvedByBody.getD "admin"
  let upd := updateFirst (fun r => r.id == reqId)
    (approveStamp now approvedBy) requests
  match upd.1 with
  | none => ⟨none, requests, items⟩
  | some r =>
      let items' :=
        match items.find? (fun it => it.requestId == r.id) with
        | some _ => items
        | none =>
            items ++ [{ id := freshId, requestId := r.id, type := r.type,
                        data := r.data, status := "active",
                        approvedAt := some (r.approvedAt.getD now),
                        approvedBy := some (r.approvedBy.getD "admin"),
                        createdAt := now, updatedAt := now }]
      ⟨some r, upd.2, items'⟩

/-- The completion re-stamp of `PUT /api/marketplace/items/:id/complete`:
status `"completed"`, fresh `completedAt`/`completedBy` (default
`"admin"`), fresh `updatedAt` (explicit at line 1736 in the degraded
branch, via `timestamps: true` in the connected one). It is applied to
whatever item matches the id — the prior status is not consulted. -/
def completeStamp (now : Int) (completedBy : String)
    (it : MarketplaceItemRec) : MarketplaceItemRec :=
  { it with status := "completed", completedAt := some now,
            completedBy := some completedBy, updatedAt := now }

/-- `PUT /api/marketplace/items/:id/complete`, degraded branch (lines
1723–1742): `findIndex` on `localDB.marketplaceItems` (absent → 404
`Item not found`), then the slot is overwritten with the completion
stamp. -/
def completeDegraded (items : List MarketplaceItemRec) (itemId : String)
    (completedByBody : Option String) (now : Int) :
    Option MarketplaceItemRec × List MarketplaceItemRec :=
  updateFirst (fun it => it.id == itemId)
    (completeStamp now (completedByBody.getD "admin")) items

/-- `PUT /api/marketplace/items/:id/complete`, connected branch (lines
1745–1762): `findOneAndUpdate({id}, {status, completedAt, completedBy})`
with `new: true` (absent → 404). -/
def completeConnected (items : List MarketplaceItemRec) (itemId : String)
    (completedByBody : Option String) (now : Int) :
    Option MarketplaceItemRec × List MarketplaceItemRec :=
  updateFirst (fun it => it.id == itemId)
    (completeStamp now (completedByBody.getD "admin")) items

/-- The status filter of `GET /api/marketplace/items` (line 1702):
`req.query.status || "active"` — an absent or empty query value falls back
to `"active"`. -/
def effectiveStatus (statusQuery : Option String) : String :=
  match statusQuery with
  | some s => if s == "" then "active" else s
  | none => "active"

/-- `GET /api/marketplace/items`, degraded branch (lines 1704–1708): a
plain `filter` over `localDB.marketplaceItems`, whose order is the reverse
insertion (unshift) order. -/
def listItemsDegraded (items : List MarketplaceItemRec)
    (statusQuery : Option String) : List MarketplaceItemRec :=
  items.filter (fun it => it.status == effectiveStatus statusQuery)

/-- `GET /api/marketplace/items`, connected branch (lines 1711–1714):
`MarketplaceItem.find({status}).sort({createdAt: -1})`. -/
def listItemsConnected (items : List MarketplaceItemRec)
    (statusQuery : Option String) : List MarketplaceItemRec :=
  (items.filter (fun it => it.status == effectiveStatus statusQuery)).mergeSort
    (fun a b => b.createdAt ≤ a.createdAt)

/-- `GET /api/marketplace/requests/:id` (lines 1503–1523): both branches
are a lookup by `id`; `none` is the 404 `Request not found` response. -/
def getRequestHandler (mode : Mode)
    (localRequests remoteRequests : List MarketplaceRequestRec)
    (id : String) : Option MarketplaceRequestRec :=
  match mode with
  | .degraded => localRequests.find? (fun r => r.id == id)
  | .connected => remoteRequests.find? (fun r => r.id == id)

/-- `DELETE /api/marketplace/requests/:id` (lines 1663–1697): degraded
`findIndex` + `splice` on `localDB.marketplaceRequests`, connected
`findOneAndDelete({id})`; `false` in the first component is the 404. -/
def deleteRequestHandler (mode : Mode)
    (localRequests remoteRequests : List MarketplaceRequestRec)
    (id : String) : Bool × List MarketplaceRequestRec :=
  match mode with
  | .degraded => removeFirst (fun r => r.id == id) localRequests
  | .connected => removeFirst (fun r => r.id == id) remoteRequests

/-! ## Meditation CRUD handlers (part_001 lines 1116–1173)

Unlike the marketplace handlers, `PUT /api/meditations/:id` and
`DELETE /api/meditations/:id` contain no `mongoConnected` branch: they call
the Mongoose `Meditation` model unconditionally and never consult
`localDB.meditations`. In degraded mode the remote store is by definition
unreachable (`mongoConnected` is false exactly when the startup connection
failed or no URI was configured), so the model call cannot return a
document or a match count — the buffered operation fails with a connection
error, modelled as the `connectionFailure` outcome. The same holds for the
Sound and Content handlers; Meditation, the entity the claim cites, stands
for the pattern. -/

/-- The partial patch of `PUT /api/meditations/:id` (lines 1132–1142): a
field enters the update document only when it was supplied
(`!== undefined`); `duration` only when it is a number. -/
structure MeditationPatch where
  title : Option String := none
  duration : Option ℚ := none
  level : Option String := none
  category : Option String := none
  description : Option String := none
  status : Option String := none
  thumbnailUrl : Option String := none
  audioUrl : Option String := none
  bannerUrl : Option String := none

/-- Application of the patch by `findOneAndUpdate` (with `timestamps:
true`, which refreshes `updatedAt`): supplied fields replace, omitted
fields persist. -/
def applyMeditationPatch (p : MeditationPatch) (now : Int)
    (m : MeditationRec) : MeditationRec :=
  { m with
    title := p.title.getD m.title,
    duration := p.duration.getD m.duration,
    level := p.level.getD m.level,
    category := p.category.getD m.category,
    description := p.description.getD m.description,
    status := p.status.getD m.status,
    thumbnailUrl := p.thumbnailUrl.getD m.thumbnailUrl,
    audioUrl := p.audioUrl.getD m.audioUrl,
    bannerUrl := p.bannerUrl.getD m.bannerUrl,
    updatedAt := now }

/-- Outcome of `PUT /api/meditations/:id`. -/
inductive UpdateOutcome where
  | ok (m : MeditationRec)
  | notFound
  | connectionFailure

/-- Outcome of `DELETE /api/meditations/:id`. -/
inductive DeleteOutcome where
  | ok
  | notFound
  | connectionFailure
deriving DecidableEq

/-- `PUT /api/meditations/:id` (lines 1116–1164): always a
`Meditation.findOneAndUpdate({id}, …)` against the remote store; a missing
id yields the 404 `meditation not found` only when that store is
reachable. -/
def meditationUpdateHandler (mode : Mode)
    (remoteMeditations : List MeditationRec) (id : String)
    (patch : MeditationPatch) (now : Int) :
    UpdateOutcome × List MeditationRec :=
  match mode with
  | .degraded => (.connectionFailure, remoteMeditations)
  | .connected =>
      let upd := updateFirst (fun m => m.id == id)
        (applyMeditationPatch patch now) remoteMeditations
      match upd.1 with
      | none => (.notFound, remoteMeditations)
      | some m => (.ok m, upd.2)

/-- `DELETE /api/meditations/:id` (lines 1166–1173): always a
`Meditation.deleteOne({id})` against the remote store; `deletedCount === 0`
yields the 404 `meditation not found` only when that store is reachable. -/
def meditationDeleteHandler (mode : Mode)
    (remoteMeditations : List MeditationRec) (id : String) :
    DeleteOutcome × List MeditationRec :=
  match mode with
  | .degraded => (.connectionFailure, remoteMeditations)
  | .connected =>
      let rem := removeFirst (fun m => m.id == id) remoteMeditations
      if rem.1 then (.ok, rem.2) else (.notFound, remoteMeditations)

/-! ## Analytics (part_001 lines 616–763) -/

/-- The per-day registration tally of `GET /api/analytics` (lines
646–650): the `reduce`-built dictionary mapping a date key to how many of
the given creation instants fall on that day. -/
def dayCount (createdAts : List Int) (key : Int) : Nat :=
  (createdAts.filter (fun t => toDateKey t == key)).length

/-- The cumulative user-growth series (lines 652–656): starting from the
baseline count, each bucket key adds its same-day registrations to the
running total and emits `(date, cumulative)`. -/
def userGrowthSeries (cum : Nat) (counts : Int → Nat) :
    List Int → List (Int × Nat)
  | [] => []
  | key :: rest =>
      let c := cum + counts key
      (key, c) :: userGrowthSeries c counts rest

/-- `start` of `GET /api/analytics` (lines 620–622): `end = now` and
`start.setDate(end.getDate() - (days - 1))`, i.e. `now − (days−1)` days. -/
def analyticsStart (nowTs : Int) (range : String) : Int :=
  nowTs - ((parseRangeDays range : Int) - 1) * msPerDay

/-- The bucket keys of `GET /api/analytics` (lines 624–625): the calendar
days from the truncated `start` to the truncated `end = now`. -/
def analyticsBuckets (nowTs : Int) (range : String) : List Int :=
  buildDateBuckets (toDateKey (analyticsStart nowTs range)) (toDateKey nowTs)

/-- `baseUserCount` (lines 634, 639): users created strictly before
`start`. -/
def baselineCount (createdAts : List Int) (nowTs : Int)
    (range : String) : Nat :=
  (createdAts.filter (fun t => decide (t < analyticsStart nowTs range))).length

/-- `usersInRange` (lines 635–637, 640–643): users created inside
`[start, end]`. -/
def usersInRange (createdAts : List Int) (nowTs : Int)
    (range : String) : List Int :=
  createdAts.filter
    (fun t => decide (analyticsStart nowTs range ≤ t) && decide (t ≤ nowTs))

/-- The user-growth computation of `GET /api/analytics` (lines 620–656)
over the resolved creation instants of the user records (degraded:
`localDB.users` mapped through `user.createdAt ? … : new Date()`;
connected: the `createdAt` projection of the `User` collection — both
reduce to a list of instants). -/
def analyticsUserGrowth (createdAts : List Int) (nowTs : Int)
    (range : String) : List (Int × Nat) :=
  userGrowthSeries (baselineCount createdAts nowTs range)
    (dayCount (usersInRange createdAts nowTs range))
    (analyticsBuckets nowTs range)

/-- The degraded-mode revenue date of an item (line 694):
`new Date(item.approvedAt || item.createdAt || Date.now())` — the approval
instant when present, else the creation instant, else the current time. -/
def degradedItemDate (now : Int) (approvedAt createdAt : Option Int) : Int :=
  ((approvedAt.orElse fun _ => createdAt).getD now)

/-- Degraded-mode revenue selection (lines 693–696): the single resolved
date must lie in `[startTs, endTs]`. -/
def degradedItemInRange (now startTs endTs : Int)
    (approvedAt createdAt : Option Int) : Bool :=
  let d := degradedItemDate now approvedAt createdAt
  decide (startTs ≤ d) && decide (d ≤ endTs)

/-- Connected-mode revenue selection (lines 702–710): the Mongo `$or`
query — `approvedAt` in `[startTs, endTs]` **or** `createdAt` in
`[startTs, endTs]` (a `$gte/$lte` comparison never matches an absent or
null field). -/
def connectedItemInRange (startTs endTs : Int)
    (approvedAt createdAt : Option Int) : Bool :=
  (match approvedAt with
   | some t => decide (startTs ≤ t) && decide (t ≤ endTs)
   | none => false) ||
  (match createdAt with
   | some t => decide (startTs ≤ t) && decide (t ≤ endTs)
   | none => false)

/-- `itemsForRange` in degraded mode (lines 692–696) over the item store. -/
def itemsForRangeDegraded (items : List MarketplaceItemRec)
    (now startTs endTs : Int) : List MarketplaceItemRec :=
  items.filter (fun it =>
    degradedItemInRange now startTs endTs it.approvedAt (some it.createdAt))

/-- `itemsForRange` in connected mode (lines 702–710) over the item store. -/
def itemsForRangeConnected (items : List MarketplaceItemRec)
    (startTs endTs : Int) : List MarketplaceItemRec :=
  items.filter (fun it =>
    connectedItemInRange startTs endTs it.approvedAt (some it.createdAt))

/-- Modelled from the spec (§4.3 step 5): an item is counted toward a
range's revenue iff "its approval (or creation, if unapproved-but-counted)
timestamp falls in the requested range" — the approval instant when
present, else the creation instant. Stated for comparison with the two
source-side selections. -/
def specItemInRange (startTs endTs : Int)
    (approvedAt : Option Int) (createdAt : Int) : Bool :=
  let d := approvedAt.getD createdAt
  decide (startTs ≤ d) && decide (d ≤ endTs)

/-! ## Derived notions used by the claims -/

/-- How many items in the store reference a given request via `requestId`. -/
def itemCountFor (items : List MarketplaceItemRec) (reqId : String) : Nat :=
  (items.filter (fun it => it.requestId == reqId)).length

/-- The per-call inputs of one `approve` invocation: the optional
`approvedBy` body field, the call's instant, and the `uuidv4()` drawn for a
possibly created item. -/
structure ApproveCall where
  approvedByBody : Option String
  now : Int
  freshId : String

/-- A sequential (non-concurrent) run of degraded-mode approve calls on one
request id: each call completes before the next starts. -/
def approveDegradedMany (reqId : String) :
    List ApproveCall →
    List MarketplaceRequestRec × List MarketplaceItemRec →
    List MarketplaceRequestRec × List MarketplaceItemRec
  | [], s => s
  | c :: cs, s =>
      let r := approveDegraded s.1 s.2 reqId c.approvedByBody c.now c.freshId
      approveDegradedMany reqId cs (r.requests, r.items)

/-- A sequential run of connected-mode approve calls on one request id. -/
def approveConnectedMany (reqId : String) :
    List ApproveCall →
    List MarketplaceRequestRec × List MarketplaceItemRec →
    List MarketplaceRequestRec × List MarketplaceItemRec
  | [], s => s
  | c :: cs, s =>
      let r := approveConnected s.1 s.2 reqId c.approvedByBody c.now c.freshId
      approveConnectedMany reqId cs (r.requests, r.items)

/-! ## Concrete records used to evaluate the definitions -/

/-- A pending retreat request, as created by `submit`. -/
def samplePendingRequest : MarketplaceRequestRec :=
  { id := "r1", type := .str "retreat" none,
    data := .obj [("price", .num 120)], status := "pending",
    userId := "u1", createdAt := 1000, updatedAt := 1000 }

/-- An already-approved request (approved at instant 2000 by alice). -/
def sampleApprovedRequest : MarketplaceRequestRec :=
  { id := "r1", type := .str "retreat" none,
    data := .obj [("price", .num 120)], status := "approved",
    userId := "u1", createdAt := 1000, updatedAt := 2000,
    approvedAt := some 2000, approvedBy := some "alice" }

/-- The item materialized for `sampleApprovedRequest`. -/
def sampleItem : MarketplaceItemRec :=
  { id := "i1", requestId := "r1", type := .str "retreat" none,
    data := .obj [("price", .num 120)], status := "active",
    approvedAt := some 2000, approvedBy := some "alice",
    createdAt := 2000, updatedAt := 2000 }

/-- An item approved at instant 0 but created at instant 10: its approval
timestamp and creation timestamp straddle the range `[5, 15]`. -/
def straddlingItem : MarketplaceItemRec :=
  { id := "i9", requestId := "r9", type := .str "session" none,
    data := .obj [("price", .num 40)], status := "active",
    approvedAt := some 0, approvedBy := some "admin",
    createdAt := 10, updatedAt := 10 }

/-! ## Supporting lemmas -/

theorem updateFirst_fst {α : Type} (p : α → Bool) (f : α → α) (l : List α) :
    (updateFirst p f l).1 = (l.find? p).map f := by
  induction l with
  | nil => rfl
  | cons x xs ih =>
      by_cases h : p x = true
      · simp [updateFirst, h, List.find?_cons]
      · simp only [Bool.not_eq_true] at h
        simp [updateFirst, h, List.find?_cons, ih]

theorem updateFirst_snd_of_none {α : Type} (p : α → Bool) (f : α → α)
    (l : List α) (h : l.find? p = none) : (updateFirst p f l).2 = l := by
  induction l with
  | nil => rfl
  | cons x xs ih =>
      rw [List.find?_cons] at h
      by_cases hx : p x = true
      · simp [hx] at h
      · simp only [Bool.not_eq_true] at hx
        simp [hx] at h
        have hxs : List.find? p xs = none :=
          List.find?_eq_none.mpr (by simpa using h)
        simp [updateFirst, hx, ih hxs]

theorem updateFirst_find?_again {α : Type} (p : α → Bool) (f : α → α)
    (hpf : ∀ x, p x = true → p (f x) = true) (l : List α) :
    (updateFirst p f l).2.find? p = (l.find? p).map f := by
  induction l with
  | nil => rfl
  | cons x xs ih =>
      by_cases hx : p x = true
      · simp [updateFirst, hx, List.find?_cons, hpf x hx]
      · simp only [Bool.not_eq_true] at hx
        simp [updateFirst, hx, List.find?_cons, ih]

theorem removeFirst_of_none {α : Type} (p : α → Bool) (l : List α)
    (h : ∀ x ∈ l, ¬ p x = true) : removeFirst p l = (false, l) := by
  induction l with
  | nil => rfl
  | cons x xs ih =>
      have hx : ¬ p x = true := h x (List.mem_cons_self x xs)
      simp only [Bool.not_eq_true] at hx
      have := ih (fun y hy => h y (List.mem_cons_of_mem x hy))
      simp [removeFirst, hx, this]

theorem filter_nil_of_find?_none {α : Type} (p : α → Bool) (l : List α)
    (h : l.find? p = none) : l.filter p = [] := by
  rw [List.find?_eq_none] at h
  exact List.filter_eq_nil_iff.mpr h

theorem buildDateBuckets_eq_range (n : ℕ) :
    ∀ s : Int, buildDateBuckets s (s + n) =
      (List.range (n + 1)).map (fun i : ℕ => s + (i : Int)) := by
  induction n with
  | zero =>
      intro s
      rw [buildDateBuckets, dif_pos (by omega : s ≤ s + ((0 : ℕ) : ℤ))]
      rw [buildDateBuckets, dif_neg (by omega : ¬ s + 1 ≤ s + ((0 : ℕ) : ℤ))]
      simp [List.range_succ]
  | succ m ih =>
      intro s
      rw [buildDateBuckets,
        dif_pos (by push_cast; omega : s ≤ s + ((m + 1 : ℕ) : ℤ))]
      have harg : s + ((m + 1 : ℕ) : ℤ) = (s + 1) + (m : ℤ) := by
        push_cast; ring
      rw [harg, List.range_succ_eq_map, ih (s + 1)]
      simp only [List.map_cons, List.map_map]
      congr 1
      · simp
      · apply List.map_congr_left
        intro a _
        simp only [Function.comp_apply]
        push_cast
        ring

theorem parseRangeDays_pos (r : String) : 1 ≤ parseRangeDays r := by
  unfold parseRangeDays
  split <;> omega

theorem userGrowthSeries_length (counts : Int → Nat) :
    ∀ (keys : List Int) (cum : Nat),
      (userGrowthSeries cum counts keys).length = keys.length := by
  intro keys
  induction keys with
  | nil => intro cum; rfl
  | cons k rest ih => intro cum; simp [userGrowthSeries, ih]

theorem userGrowthSeries_get (counts : Int → Nat) :
    ∀ (keys : List Int) (cum : Nat) (i : ℕ) (h : i < keys.length),
      (userGrowthSeries cum counts keys).get
          ⟨i, by rw [userGrowthSeries_length]; exact h⟩ =
        (keys.get ⟨i, h⟩, cum + ((keys.take (i + 1)).map counts).sum) := by
  intro keys
  induction keys with
  | nil => intro cum i h; simp at h
  | cons k rest ih =>
      intro cum i h
      match i with
      | 0 => simp [userGrowthSeries]
      | Nat.succ j =>
          have hj : j < rest.length := by simpa using h
          simp only [userGrowthSeries, List.get_cons_succ]
          rw [ih (cum + counts k) j hj]
          simp [List.take_succ_cons, Nat.add_assoc]

theorem userGrowthSeries_le (counts : Int → Nat) :
    ∀ (keys : List Int) (cum : Nat) (x : Int × Nat),
      x ∈ userGrowthSeries cum counts keys → cum ≤ x.2 := by
  intro keys
  induction keys with
  | nil => intro cum x hx; simp [userGrowthSeries] at hx
  | cons k rest ih =>
      intro cum x hx
      simp only [userGrowthSeries, List.mem_cons] at hx
      rcases hx with rfl | hx
      · simp
      · have := ih (cum + counts k) x hx
        omega

theorem userGrowthSeries_chain' (counts : Int → Nat) :
    ∀ (keys : List Int) (cum : Nat),
      List.Chain' (fun a b => a.2 ≤ b.2) (userGrowthSeries cum counts keys) := by
  intro keys
  induction keys with
  | nil => intro cum; simp [userGrowthSeries]
  | cons k rest ih =>
      intro cum
      rw [userGrowthSeries, List.chain'_cons']
      refine ⟨?_, ih (cum + counts k)⟩
      intro y hy
      have hmem : y ∈ userGrowthSeries (cum + counts k) counts rest :=
        List.mem_of_mem_head? hy
      exact userGrowthSeries_le counts rest (cum + counts k) y hmem

theorem firstAmount_eq_findSome? :
    ∀ l : List JSValue,
      firstAmount l = ((l.findSome? qualifiesAsAmount).getD 0) := by
  intro l
  induction l with
  | nil => rfl
  | cons v rest ih =>
      cases v with
      | str t p =>
          cases p with
          | none => simpa [firstAmount, List.findSome?_cons, qualifiesAsAmount] using ih
          | some q => simp [firstAmount, List.findSome?_cons, qualifiesAsAmount]
      | num q => simp [firstAmount, List.findSome?_cons, qualifiesAsAmount]
      | undefined => simpa [firstAmount, List.findSome?_cons, qualifiesAsAmount] using ih
      | null => simpa [firstAmount, List.findSome?_cons, qualifiesAsAmount] using ih
      | bool b => simpa [firstAmount, List.findSome?_cons, qualifiesAsAmount] using ih
      | nan => simpa [firstAmount, List.findSome?_cons, qualifiesAsAmount] using ih
      | infinite b => simpa [firstAmount, List.findSome?_cons, qualifiesAsAmount] using ih
      | obj fields => simpa [firstAmount, List.findSome?_cons, qualifiesAsAmount] using ih

theorem approveStamp_id (now : Int) (b : String) (r : MarketplaceRequestRec) :
    (approveStamp now b r).id = r.id := rfl

theorem approveDegraded_itemCount (requests : List MarketplaceRequestRec)
    (items : List MarketplaceItemRec) (reqId : String)
    (approvedByBody : Option String) (now : Int) (freshId : String)
    (h : itemCountFor items reqId ≤ 1) :
    itemCountFor
      (approveDegraded requests items reqId approvedByBody now freshId).items
      reqId ≤ 1 := by
  simp only [approveDegraded]
  rcases hu : (updateFirst (fun r => r.id == reqId)
      (approveStamp now (approvedByBody.getD "admin")) requests).1 with _ | r
  · simpa [hu] using h
  · rcases hf : items.find? (fun it => it.requestId == reqId) with _ | it
    · have hnil := filter_nil_of_find?_none
        (fun it : MarketplaceItemRec => it.requestId == reqId) items hf
      have hid : r.id = reqId := by
        rw [updateFirst_fst] at hu
        rcases Option.map_eq_some'.mp hu with ⟨r0, hr0, hr⟩
        have hp := List.find?_some hr0
        simp only [beq_iff_eq] at hp
        rw [← hr, approveStamp_id, hp]
      simp only [hu, hf]
      simp [itemCountFor, materializeItem, hid, hnil]
    · simpa [hu, hf] using h

theorem approveConnected_itemCount (requests : List MarketplaceRequestRec)
    (items : List MarketplaceItemRec) (reqId : String)
    (approvedByBody : Option String) (now : Int) (freshId : String)
    (h : itemCountFor items reqId ≤ 1) :
    itemCountFor
      (approveConnected requests items reqId approvedByBody now freshId).items
      reqId ≤ 1 := by
  simp only [approveConnected]
  rcases hu : (updateFirst (fun r => r.id == reqId)
      (approveStamp now (approvedByBody.getD "admin")) requests).1 with _ | r
  · simpa [hu] using h
  · have hid : r.id = reqId := by
      rw [updateFirst_fst] at hu
      rcases Option.map_eq_some'.mp hu with ⟨r0, hr0, hr⟩
      have hp := List.find?_some hr0
      simp only [beq_iff_eq] at hp
      rw [← hr, approveStamp_id, hp]
    rcases hf : items.find? (fun it => it.requestId == r.id) with _ | it
    · have hnil := filter_nil_of_find?_none
        (fun it : MarketplaceItemRec => it.requestId == reqId) items
        (by rw [← hid]; exact hf)
      simp only [hu, hf]
      simp [itemCountFor, List.filter_append, hid, hnil]
    · simpa [hu, hf] using h

theorem approveDegradedMany_itemCount (reqId : String) :
    ∀ (calls : List ApproveCall)
      (s : List MarketplaceRequestRec × List MarketplaceItemRec),
      itemCountFor s.2 reqId ≤ 1 →
      itemCountFor (approveDegradedMany reqId calls s).2 reqId ≤ 1 := by
  intro calls
  induction calls with
  | nil => intro s h; exact h
  | cons c cs ih =>
      intro s h
      simp only [approveDegradedMany]
      exact ih _ (approveDegraded_itemCount s.1 s.2 reqId
        c.approvedByBody c.now c.freshId h)

theorem approveConnectedMany_itemCount (reqId : String) :
    ∀ (calls : List ApproveCall)
      (s : List MarketplaceRequestRec × List MarketplaceItemRec),
      itemCountFor s.2 reqId ≤ 1 →
      itemCountFor (approveConnectedMany reqId calls s).2 reqId ≤ 1 := by
  intro calls
  induction calls with
  | nil => intro s h; exact h
  | cons c cs ih =>
      intro s h
      simp only [approveConnectedMany]
      exact ih _ (approveConnected_itemCount s.1 s.2 reqId
        c.approvedByBody c.now c.freshId h)

/-! ## The claims -/

/-- C1: For every marketplace request, after any sequence of sequential
(non-concurrent) approve calls on that request's id, at most one
`MarketplaceItem` references that request via `requestId` — a second
approve on an already-approved request does not create a second item, in
both connected and degraded modes. -/
theorem C1_approve_idempotent_item_creation (reqId : String)
    (calls : List ApproveCall) (requests : List MarketplaceRequestRec)
    (items : List MarketplaceItemRec)
    (h : itemCountFor items reqId ≤ 1) :
    itemCountFor (approveDegradedMany reqId calls (requests, items)).2 reqId ≤ 1 ∧
    itemCountFor (approveConnectedMany reqId calls (requests, items)).2 reqId ≤ 1 :=
  ⟨approveDegradedMany_itemCount reqId calls (requests, items) h,
   approveConnectedMany_itemCount reqId calls (requests, items) h⟩

/-- Witness for C1: starting from one pending request and no items, two
sequential approve calls leave exactly one item referencing the request. -/
theorem C1_witness :
    itemCountFor [] "r1" ≤ 1 ∧
    itemCountFor (approveDegradedMany "r1"
      [⟨some "alice", 2000, "i1"⟩, ⟨some "bob", 3000, "i2"⟩]
      ([samplePendingRequest], [])).2 "r1" ≤ 1 ∧
    itemCountFor (approveDegradedMany "r1"
      [⟨some "alice", 2000, "i1"⟩, ⟨some "bob", 3000, "i2"⟩]
      ([samplePendingRequest], [])).2 "r1" = 1 :=
  ⟨by decide,
   (C1_approve_idempotent_item_creation "r1"
      [⟨some "alice", 2000, "i1"⟩, ⟨some "bob", 3000, "i2"⟩]
      [samplePendingRequest] [] (by decide)).1,
   by decide⟩

/-- C3: For every range argument, the analytics day-bucket sequence has
exactly `days` entries, where `days` is 7, 30, 90, or 365 for ranges
`"7d"`, `"30d"`, `"90d"`, `"1y"` and 7 for any unrecognized value; the
buckets are the consecutive calendar days `today − (days−1) + i` for
`i = 0, …, days−1`, in ascending order with no gaps and no repeats. -/
theorem C3_bucket_sequence :
    (parseRangeDays "7d" = 7 ∧ parseRangeDays "30d" = 30 ∧
     parseRangeDays "90d" = 90 ∧ parseRangeDays "1y" = 365) ∧
    (∀ range : String, range ≠ "30d" → range ≠ "90d" → range ≠ "1y" →
      parseRangeDays range = 7) ∧
    (∀ (range : String) (today : Int),
      buildDateBuckets (today - ((parseRangeDays range : Int) - 1)) today =
        (List.range (parseRangeDays range)).map
          (fun i : ℕ => today - ((parseRangeDays range : Int) - 1) + (i : Int))) := by
  refine ⟨⟨rfl, rfl, rfl, rfl⟩, ?_, ?_⟩
  · intro range h30 h90 h1y
    unfold parseRangeDays
    split <;> simp_all
  · intro range today
    have hd := parseRangeDays_pos range
    have h2 : today = (today - ((parseRangeDays range : Int) - 1)) +
        ((parseRangeDays range - 1 : ℕ) : ℤ) := by
      have : ((parseRangeDays range - 1 : ℕ) : ℤ) =
          (parseRangeDays range : Int) - 1 := by
        push_cast [hd]
        ring
      rw [this]; ring
    have h3 := buildDateBuckets_eq_range (parseRangeDays range - 1)
      (today - ((parseRangeDays range : Int) - 1))
    rw [Nat.sub_add_cancel hd] at h3
    rw [← h2] at h3
    exact h3

/-- Witness for C3: an unrecognized range resolves to 7 days, and the 7-day
bucket list ending at day 0 is the seven consecutive days −6 … 0. -/
theorem C3_witness :
    parseRangeDays "quarter" = 7 ∧
    buildDateBuckets (0 - ((parseRangeDays "7d" : Int) - 1)) 0 =
      [-6, -5, -4, -3, -2, -1, 0] :=
  ⟨C3_bucket_sequence.2.1 "quarter" (by decide) (by decide) (by decide),
   by rw [C3_bucket_sequence.2.2 "7d" 0]; decide⟩

/-- C4: For every item payload, the extracted monetary amount follows the
precedence `price`, `amount`, `total`, `cost`, taking the first candidate
that is a finite number or a numeric-parseable string, and 0 when none
qualifies; in particular `{price: 5, amount: 10}` yields 5,
`{amount: "7.5"}` yields 7.5, and `{}` yields 0. -/
theorem C4_amount_precedence :
    (∀ data : JSValue,
      getItemAmount data =
        (([(dataOrEmpty data).getField "price",
           (dataOrEmpty data).getField "amount",
           (dataOrEmpty data).getField "total",
           (dataOrEmpty data).getField "cost"].findSome?
            qualifiesAsAmount).getD 0)) ∧
    getItemAmount (.obj [("price", .num 5), ("amount", .num 10)]) = 5 ∧
    getItemAmount (.obj [("amount", .str "7.5" (some (15 / 2)))]) = 15 / 2 ∧
    getItemAmount (.obj []) = 0 := by
  refine ⟨?_, rfl, rfl, rfl⟩
  intro data
  simpa only [getItemAmount] using firstAmount_eq_findSome? _

/-- C10: submit rejects a request whose `data` field is present but
falsy — for `data` equal to `0`, the empty string, or `false`, submit
fails with `ValidationError` even though both `type` and `data` were
supplied, because the check is on truthiness rather than presence. -/
theorem C10_falsy_data_rejected (requests : List MarketplaceRequestRec)
    (type : JSValue) (userIdBody : Option String) (now : Int)
    (freshId : String) (_htype : type.truthy = true) :
    ∀ data ∈ [JSValue.num 0, JSValue.str "" none, JSValue.bool false],
      (submitRequestDegraded requests type data userIdBody now freshId)
        = (.validationError, requests) ∧
      (submitRequestConnected requests type data userIdBody now freshId)
        = (.validationError, requests) := by
  intro data hdata
  simp only [List.mem_cons] at hdata
  rcases hdata with rfl | rfl | rfl | h
  · simp [submitRequestDegraded, submitRequestConnected, submitValidates,
      JSValue.truthy]
  · simp [submitRequestDegraded, submitRequestConnected, submitValidates,
      JSValue.truthy]
  · simp [submitRequestDegraded, submitRequestConnected, submitValidates,
      JSValue.truthy]
  · simp at h

/-- Witness for C10: a supplied truthy type `"retreat"` together with the
supplied-but-falsy payload `0` is rejected with a `ValidationError`. -/
theorem C10_witness :
    (submitRequestDegraded [] (.str "retreat" none) (.num 0) none 0 "r9")
      = (.validationError, []) :=
  (C10_falsy_data_rejected [] (.str "retreat" none) none 0 "r9"
      (by decide) (.num 0) (by simp)).1

theorem userGrowthSeries_eq (counts : Int → Nat) :
    ∀ (keys : List Int) (cum : Nat),
      userGrowthSeries cum counts keys =
        (List.range keys.length).map (fun i : ℕ =>
          (keys.getD i 0, cum + ((keys.take (i + 1)).map counts).sum)) := by
  intro keys
  induction keys with
  | nil => intro cum; rfl
  | cons k rest ih =>
      intro cum
      show (k, cum + counts k) :: userGrowthSeries (cum + counts k) counts rest =
        (List.range ((k :: rest).length)).map (fun i : ℕ =>
          ((k :: rest).getD i 0,
           cum + (((k :: rest).take (i + 1)).map counts).sum))
      rw [List.length_cons, List.range_succ_eq_map, List.map_cons,
        List.map_map, List.cons_eq_cons]
      constructor
      · simp
      · rw [ih (cum + counts k)]
        apply List.map_congr_left
        intro i _
        simp only [Function.comp_apply, List.getD_cons_succ,
          List.take_succ_cons, List.map_cons, List.sum_cons, Nat.add_assoc]

/-- C5: For any set of user records and any range, the userGrowth series is
monotonically non-decreasing across consecutive buckets: each bucket's
value is the count of users created strictly before start (the baseline)
plus the cumulative count of same-day registrations up to and including
that bucket. -/
theorem C5_user_growth_cumulative (createdAts : List Int) (nowTs : Int)
    (range : String) :
    List.Chain' (fun a b => a.2 ≤ b.2)
      (analyticsUserGrowth createdAts nowTs range) ∧
    analyticsUserGrowth createdAts nowTs range =
      (List.range (analyticsBuckets nowTs range).length).map (fun i : ℕ =>
        ((analyticsBuckets nowTs range).getD i 0,
         baselineCount createdAts nowTs range +
           (((analyticsBuckets nowTs range).take (i + 1)).map
             (dayCount (usersInRange createdAts nowTs range))).sum)) :=
  ⟨userGrowthSeries_chain' _ _ _, userGrowthSeries_eq _ _ _⟩

/-- Counterexample to C6: an item approved at instant 0 but created at
instant 10 is selected for the range `[5, 15]` by the connected-mode `$or`
query (its `createdAt` qualifies) but not by the degraded-mode filter
(which resolves the single date `approvedAt = 0`, outside the range) — the
two modes do not select the same set, and the connected mode disagrees
with the approvedAt-else-createdAt criterion the claim states. -/
theorem C6_counterexample :
    itemsForRangeConnected [straddlingItem] 5 15 = [straddlingItem] ∧
    itemsForRangeDegraded [straddlingItem] 7 5 15 = [] ∧
    specItemInRange 5 15 straddlingItem.approvedAt
      straddlingItem.createdAt = false :=
  ⟨rfl, rfl, rfl⟩

/-- C6 (amended): the degraded-mode revenue selection implements exactly
the approvedAt-else-createdAt-in-range criterion; the connected-mode `$or`
query selects a superset of it, and the two modes disagree exactly on
items whose `approvedAt` is present but outside the range while their
`createdAt` lies inside it. -/
theorem C6_amended_range_selection (startTs endTs now : Int)
    (approvedAt : Option Int) (createdAt : Int) :
    (degradedItemInRange now startTs endTs approvedAt (some createdAt) =
      specItemInRange startTs endTs approvedAt createdAt) ∧
    (degradedItemInRange now startTs endTs approvedAt (some createdAt) = true →
      connectedItemInRange startTs endTs approvedAt (some createdAt) = true) ∧
    (connectedItemInRange startTs endTs approvedAt (some createdAt) = true ∧
       degradedItemInRange now startTs endTs approvedAt (some createdAt) = false ↔
     ∃ a, approvedAt = some a ∧ ¬(startTs ≤ a ∧ a ≤ endTs) ∧
       startTs ≤ createdAt ∧ createdAt ≤ endTs) := by
  cases approvedAt with
  | none =>
      refine ⟨rfl, ?_, ?_⟩
      · intro h
        simp only [degradedItemInRange, degradedItemDate, Option.orElse,
          Option.getD, Bool.and_eq_true, decide_eq_true_eq] at h
        simp only [connectedItemInRange, Bool.false_or, Bool.and_eq_true,
          decide_eq_true_eq]
        exact h
      · constructor
        · rintro ⟨hc, hd⟩
          exfalso
          simp only [connectedItemInRange, Bool.false_or, Bool.and_eq_true,
            decide_eq_true_eq] at hc
          simp only [degradedItemInRange, degradedItemDate, Option.orElse,
            Option.getD, Bool.and_eq_true, decide_eq_true_eq] at hd
          rw [Bool.and_eq_false_iff] at hd
          rcases hd with hd | hd <;> simp only [decide_eq_false_iff_not] at hd <;>
            omega
        · rintro ⟨a, ha, _⟩
          exact absurd ha (by simp)
  | some a =>
      refine ⟨rfl, ?_, ?_⟩
      · intro h
        simp only [degradedItemInRange, degradedItemDate, Option.orElse,
          Option.getD, Bool.and_eq_true, decide_eq_true_eq] at h
        simp only [connectedItemInRange, Bool.or_eq_true, Bool.and_eq_true,
          decide_eq_true_eq]
        exact Or.inl h
      · constructor
        · rintro ⟨hc, hd⟩
          simp only [connectedItemInRange, Bool.or_eq_true, Bool.and_eq_true,
            decide_eq_true_eq] at hc
          simp only [degradedItemInRange, degradedItemDate, Option.orElse,
            Option.getD, Bool.and_eq_false_iff, decide_eq_false_iff_not] at hd
          refine ⟨a, rfl, ?_, ?_, ?_⟩ <;> rcases hc with hc | hc <;>
            rcases hd with hd | hd <;> omega
        · rintro ⟨a', ha', hout, hc1, hc2⟩
          obtain rfl : a' = a := by simpa using ha'.symm
          constructor
          · simp only [connectedItemInRange, Bool.or_eq_true, Bool.and_eq_true,
              decide_eq_true_eq]
            exact Or.inr ⟨hc1, hc2⟩
          · simp only [degradedItemInRange, degradedItemDate, Option.orElse,
              Option.getD, Bool.and_eq_false_iff, decide_eq_false_iff_not]
            omega

/-- Witness for C6 (amended): for the range `[5, 15]`, an item with
`approvedAt = 20` and `createdAt = 10` is selected by the connected-mode
query while the degraded-mode filter rejects it, exhibiting the exact
disagreement pattern; and a degraded-selected item (`approvedAt = 10`) is
also connected-selected. -/
theorem C6_witness :
    (∃ a, (some (20 : Int)) = some a ∧ ¬((5 : Int) ≤ a ∧ a ≤ 15) ∧
      (5 : Int) ≤ 10 ∧ (10 : Int) ≤ 15) ∧
    connectedItemInRange 5 15 (some 10) (some 3) = true :=
  ⟨(C6_amended_range_selection 5 15 7 (some 20) 10).2.2.mp
      ⟨by decide, by decide⟩,
   (C6_amended_range_selection 5 15 7 (some 10) 3).2.1 (by decide)⟩

/-- C7: complete fails with `NotFoundError` when no item has the given id;
when the item exists, it sets status to `completed` and stamps
`completedAt`/`completedBy` (defaulting `completedBy` to `"admin"`);
invoking complete again on an already-completed item is not a no-op — it
succeeds and re-stamps `completedAt`/`completedBy`. Both backend branches
perform the identical first-match update. -/
theorem C7_complete_restamps (items : List MarketplaceItemRec)
    (itemId : String) (by1 by2 : Option String) (now1 now2 : Int) :
    (completeConnected items itemId by1 now1 =
      completeDegraded items itemId by1 now1) ∧
    ((∀ it ∈ items, ¬ it.id = itemId) →
      completeDegraded items itemId by1 now1 = (none, items)) ∧
    (∀ it, items.find? (fun i => i.id == itemId) = some it →
      (completeDegraded items itemId by1 now1).1 =
        some (completeStamp now1 (by1.getD "admin") it) ∧
      (completeStamp now1 (by1.getD "admin") it).status = "completed" ∧
      (completeStamp now1 (by1.getD "admin") it).completedAt = some now1 ∧
      (completeStamp now1 (by1.getD "admin") it).completedBy =
        some (by1.getD "admin") ∧
      (completeDegraded (completeDegraded items itemId by1 now1).2
          itemId by2 now2).1 =
        some (completeStamp now2 (by2.getD "admin")
          (completeStamp now1 (by1.getD "admin") it)) ∧
      (completeStamp now2 (by2.getD "admin")
          (completeStamp now1 (by1.getD "admin") it)).completedAt =
        some now2) := by
  refine ⟨rfl, ?_, ?_⟩
  · intro hnone
    have hf : items.find? (fun i => i.id == itemId) = none := by
      rw [List.find?_eq_none]
      intro x hx
      simpa using hnone x hx
    have h1 : (completeDegraded items itemId by1 now1).1 = none := by
      rw [completeDegraded, updateFirst_fst, hf]
      rfl
    have h2 : (completeDegraded items itemId by1 now1).2 = items :=
      updateFirst_snd_of_none _ _ _ hf
    rw [Prod.ext_iff]
    exact ⟨h1, h2⟩
  · intro it hit
    have hstamp_id : ∀ x : MarketplaceItemRec,
        (fun i => i.id == itemId) x = true →
        (fun i => i.id == itemId) (completeStamp now1 (by1.getD "admin") x)
          = true := by
      intro x hx
      simpa [completeStamp] using hx
    refine ⟨?_, rfl, rfl, rfl, ?_, rfl⟩
    · rw [completeDegraded, updateFirst_fst, hit]
      rfl
    · rw [completeDegraded, completeDegraded, updateFirst_fst,
        updateFirst_find?_again _ _ hstamp_id, hit]
      rfl

/-- Witness for C7: completing the active sample item stamps it completed
at 5000 by carol; completing it again re-stamps it at 6000 by dave; and a
complete on an empty store is a not-found no-op. -/
theorem C7_witness :
    (completeDegraded [sampleItem] "i1" (some "carol") 5000).1 =
      some (completeStamp 5000 "carol" sampleItem) ∧
    (completeDegraded
        (completeDegraded [sampleItem] "i1" (some "carol") 5000).2
        "i1" (some "dave") 6000).1 =
      some (completeStamp 6000 "dave" (completeStamp 5000 "carol" sampleItem)) ∧
    completeDegraded [] "i1" (some "carol") 5000 = (none, []) :=
  ⟨((C7_complete_restamps [sampleItem] "i1" (some "carol") (some "dave")
      5000 6000).2.2 sampleItem rfl).1,
   ((C7_complete_restamps [sampleItem] "i1" (some "carol") (some "dave")
      5000 6000).2.2 sampleItem rfl).2.2.2.2.1,
   (C7_complete_restamps [] "i1" (some "carol") (some "dave") 5000 6000).2.1
      (by simp)⟩

/-- C8: `listItems(status)` returns exactly the `MarketplaceItem` records
whose status equals the given status, defaulting to `"active"` when no
status is supplied, ordered newest-first by creation time, in both
connected and degraded modes — the connected branch sorts by `createdAt`
descending, the degraded branch preserves the store's reverse-insertion
order, which stays newest-first because every approve inserts at the front
with the current instant. -/
theorem C8_list_items_filter_order (items : List MarketplaceItemRec)
    (statusQuery : Option String) (x : MarketplaceItemRec) :
    effectiveStatus none = "active" ∧
    (x ∈ listItemsDegraded items statusQuery ↔
      x ∈ items ∧ x.status = effectiveStatus statusQuery) ∧
    (x ∈ listItemsConnected items statusQuery ↔
      x ∈ items ∧ x.status = effectiveStatus statusQuery) ∧
    List.Pairwise (fun a b : MarketplaceItemRec => b.createdAt ≤ a.createdAt)
      (listItemsConnected items statusQuery) ∧
    (List.Pairwise (fun a b : MarketplaceItemRec => b.createdAt ≤ a.createdAt)
        items →
      List.Pairwise (fun a b : MarketplaceItemRec => b.createdAt ≤ a.createdAt)
        (listItemsDegraded items statusQuery)) ∧
    (∀ (requests : List MarketplaceRequestRec) (reqId : String)
        (byBody : Option String) (now : Int) (freshId : String),
      List.Pairwise (fun a b : MarketplaceItemRec => b.createdAt ≤ a.createdAt)
        items →
      (∀ it ∈ items, it.createdAt ≤ now) →
      List.Pairwise (fun a b : MarketplaceItemRec => b.createdAt ≤ a.createdAt)
        (approveDegraded requests items reqId byBody now freshId).items) := by
  refine ⟨rfl, ?_, ?_, ?_, ?_, ?_⟩
  · rw [listItemsDegraded, List.mem_filter, beq_iff_eq]
  · rw [listItemsConnected, List.mem_mergeSort, List.mem_filter, beq_iff_eq]
  · have hsorted := @List.sorted_mergeSort MarketplaceItemRec
      (fun a b : MarketplaceItemRec => decide (b.createdAt ≤ a.createdAt))
      (fun a b c hab hbc => by
        simp only [decide_eq_true_eq] at *
        omega)
      (fun a b => by
        simp only [Bool.or_eq_true, decide_eq_true_eq]
        omega)
      (items.filter (fun it => it.status == effectiveStatus statusQuery))
    rw [listItemsConnected]
    exact hsorted.imp (fun h => by simpa using h)
  · intro hp
    exact hp.filter _
  · intro requests reqId byBody now freshId hp hle
    simp only [approveDegraded]
    rcases hu : (updateFirst (fun r => r.id == reqId)
        (approveStamp now (byBody.getD "admin")) requests).1 with _ | r
    · simpa [hu] using hp
    · rcases hf : items.find? (fun it => it.requestId == reqId) with _ | it
      · simp only [hu, hf]
        rw [List.pairwise_cons]
        exact ⟨fun y hy => hle y hy, hp⟩
      · simpa [hu, hf] using hp

/-- Witness for C8: with the store holding the newer sample item (created
at 2000) before the older straddling item (created at 10), the degraded
listing stays newest-first and contains the active sample item. -/
theorem C8_witness :
    List.Pairwise (fun a b : MarketplaceItemRec => b.createdAt ≤ a.createdAt)
      (listItemsDegraded [sampleItem, straddlingItem] none) ∧
    sampleItem ∈ listItemsDegraded [sampleItem, straddlingItem] none :=
  ⟨(C8_list_items_filter_order [sampleItem, straddlingItem] none
      sampleItem).2.2.2.2.1 (by decide),
   ((C8_list_items_filter_order [sampleItem, straddlingItem] none
      sampleItem).2.1).mpr ⟨by simp, rfl⟩⟩

/-- Counterexample to C9: approving the already-approved sample request
(updatedAt 2000) at instant 3000 re-stamps the request's `updatedAt` to
3000 as well — a request field other than `approvedAt`/`approvedBy`
changes, so "all other request fields are left unchanged" fails; the
already-materialized item is indeed untouched. -/
theorem C9_counterexample :
    ((approveDegraded [sampleApprovedRequest] [sampleItem] "r1"
        (some "bob") 3000 "i2").requests.map (fun r => r.updatedAt)) =
      [3000] ∧
    sampleApprovedRequest.updatedAt = 2000 ∧
    (approveDegraded [sampleApprovedRequest] [sampleItem] "r1"
        (some "bob") 3000 "i2").items = [sampleItem] :=
  ⟨rfl, rfl, rfl⟩

/-- C9 (amended): calling approve on a request that is already approved
succeeds and overwrites the request's `approvedAt` and `approvedBy` with
fresh values from the new call, also re-setting `status` to `"approved"`
and refreshing `updatedAt`; the remaining request fields (id, type, data,
userId, createdAt) and — when an item already references the request — the
item store are left unchanged, in both connected and degraded modes. -/
theorem C9_amended_restamp (requests : List MarketplaceRequestRec)
    (items : List MarketplaceItemRec) (reqId : String)
    (byBody : Option String) (now : Int) (freshId : String) :
    (∀ r', (approveDegraded requests items reqId byBody now freshId).outcome
        = some r' →
      r'.approvedAt = some now ∧ r'.approvedBy = some (byBody.getD "admin") ∧
      r'.updatedAt = now ∧ r'.status = "approved" ∧
      ∃ r ∈ requests, r.id = reqId ∧ r'.id = r.id ∧ r'.type = r.type ∧
        r'.data = r.data ∧ r'.userId = r.userId ∧
        r'.createdAt = r.createdAt) ∧
    ((∃ it ∈ items, it.requestId = reqId) →
      (approveDegraded requests items reqId byBody now freshId).items
        = items) ∧
    (∀ r', (approveConnected requests items reqId byBody now freshId).outcome
        = some r' →
      r'.approvedAt = some now ∧ r'.approvedBy = some (byBody.getD "admin") ∧
      r'.updatedAt = now ∧ r'.status = "approved" ∧
      ∃ r ∈ requests, r.id = reqId ∧ r'.id = r.id ∧ r'.type = r.type ∧
        r'.data = r.data ∧ r'.userId = r.userId ∧
        r'.createdAt = r.createdAt) ∧
    ((∃ it ∈ items, it.requestId = reqId) →
      (approveConnected requests items reqId byBody now freshId).items
        = items) := by
  have hfind : (∃ it ∈ items, it.requestId = reqId) →
      ∃ it0, items.find? (fun it => it.requestId == reqId) = some it0 := by
    rintro ⟨it, hmem, hrid⟩
    rcases hf : items.find? (fun it => it.requestId == reqId) with _ | it0
    · rw [List.find?_eq_none] at hf
      exact absurd (by simpa using hrid) (hf it hmem)
    · exact ⟨it0, hf⟩
  have hfromStamp : ∀ r',
      (updateFirst (fun r => r.id == reqId)
        (approveStamp now (byBody.getD "admin")) requests).1 = some r' →
      r'.approvedAt = some now ∧ r'.approvedBy = some (byBody.getD "admin") ∧
      r'.updatedAt = now ∧ r'.status = "approved" ∧
      ∃ r ∈ requests, r.id = reqId ∧ r'.id = r.id ∧ r'.type = r.type ∧
        r'.data = r.data ∧ r'.userId = r.userId ∧
        r'.createdAt = r.createdAt := by
    intro r' h
    rw [updateFirst_fst] at h
    rcases Option.map_eq_some'.mp h with ⟨r0, hr0, hr⟩
    have hp := List.find?_some hr0
    simp only [beq_iff_eq] at hp
    subst hr
    exact ⟨rfl, rfl, rfl, rfl, r0, List.mem_of_find?_eq_some hr0, hp,
      rfl, rfl, rfl, rfl, rfl⟩
  refine ⟨?_, ?_, ?_, ?_⟩
  · intro r' h
    simp only [approveDegraded] at h
    rcases hu : (updateFirst (fun r => r.id == reqId)
        (approveStamp now (byBody.getD "admin")) requests).1 with _ | r
    · rw [hu] at h; simp at h
    · rw [hu] at h
      simp only [Option.some.injEq] at h
      subst h
      exact hfromStamp r hu
  · intro hex
    rcases hfind hex with ⟨it0, hf⟩
    simp only [approveDegraded]
    rcases hu : (updateFirst (fun r => r.id == reqId)
        (approveStamp now (byBody.getD "admin")) requests).1 with _ | r
    · simp [hu]
    · simp [hu, hf]
  · intro r' h
    simp only [approveConnected] at h
    rcases hu : (updateFirst (fun r => r.id == reqId)
        (approveStamp now (byBody.getD "admin")) requests).1 with _ | r
    · rw [hu] at h; simp at h
    · rw [hu] at h
      simp only [Option.some.injEq] at h
      subst h
      exact hfromStamp r hu
  · intro hex
    rcases hfind hex with ⟨it0, hf⟩
    simp only [approveConnected]
    rcases hu : (updateFirst (fun r => r.id == reqId)
        (approveStamp now (byBody.getD "admin")) requests).1 with _ | r
    · simp [hu]
    · have hfr : items.find? (fun it => it.requestId == r.id) = some it0 := by
        have hid : r.id = reqId := by
          rw [updateFirst_fst] at hu
          rcases Option.map_eq_some'.mp hu with ⟨r0, hr0, hr⟩
          have hp := List.find?_some hr0
          simp only [beq_iff_eq] at hp
          rw [← hr, approveStamp_id, hp]
        rw [hid]
        exact hf
      simp [hu, hfr]

/-- Witness for C9 (amended): re-approving the already-approved sample
request at instant 3000 by bob leaves the materialized item untouched and
yields a request stamped `approvedAt = 3000`, `approvedBy = "bob"`,
`updatedAt = 3000`, with id/type/data/userId/createdAt from the original. -/
theorem C9_witness :
    (approveDegraded [sampleApprovedRequest] [sampleItem] "r1" (some "bob")
        3000 "i2").items = [sampleItem] ∧
    (approveStamp 3000 "bob" sampleApprovedRequest).approvedAt = some 3000 :=
  ⟨(C9_amended_restamp [sampleApprovedRequest] [sampleItem] "r1"
      (some "bob") 3000 "i2").2.1 ⟨sampleItem, by simp, rfl⟩,
   ((C9_amended_restamp [sampleApprovedRequest] [sampleItem] "r1"
      (some "bob") 3000 "i2").1
      (approveStamp 3000 "bob" sampleApprovedRequest) rfl).1⟩

/-- Counterexample to C2: in degraded mode, `DELETE /api/meditations/:id`
on an absent id does not yield `NotFoundError` — the handler has no
`mongoConnected` branch and queries the unreachable remote store, failing
with a connection error instead (the fallback store is never consulted). -/
theorem C2_counterexample :
    (meditationDeleteHandler Mode.degraded [] "m1").1 =
      DeleteOutcome.connectionFailure ∧
    (meditationDeleteHandler Mode.degraded [] "m1").1 ≠
      DeleteOutcome.notFound :=
  ⟨rfl, by decide⟩

/-- C2 (amended): get/update/delete on an absent id yield `NotFoundError`
for the mode-aware marketplace handlers in both connected and degraded
mode; for Meditation (and the other entities whose handlers never branch
on the mode) update and delete yield `NotFoundError` in connected mode
only — in degraded mode they never consult the fallback store and fail
with a connection error, never `NotFoundError`. -/
theorem C2_amended_not_found (meds : List MeditationRec)
    (patch : MeditationPatch) (now : Int)
    (localReqs remoteReqs : List MarketplaceRequestRec)
    (items : List MarketplaceItemRec) (byBody : Option String)
    (id : String) :
    ((∀ m ∈ meds, ¬ m.id = id) →
      (meditationUpdateHandler Mode.connected meds id patch now).1 =
          UpdateOutcome.notFound ∧
      (meditationDeleteHandler Mode.connected meds id).1 =
          DeleteOutcome.notFound) ∧
    ((meditationUpdateHandler Mode.degraded meds id patch now).1 =
        UpdateOutcome.connectionFailure ∧
     (meditationDeleteHandler Mode.degraded meds id).1 =
        DeleteOutcome.connectionFailure) ∧
    ((∀ r ∈ localReqs, ¬ r.id = id) →
      getRequestHandler Mode.degraded localReqs remoteReqs id = none ∧
      (deleteRequestHandler Mode.degraded localReqs remoteReqs id).1
        = false) ∧
    ((∀ r ∈ remoteReqs, ¬ r.id = id) →
      getRequestHandler Mode.connected localReqs remoteReqs id = none ∧
      (deleteRequestHandler Mode.connected localReqs remoteReqs id).1
        = false) ∧
    ((∀ it ∈ items, ¬ it.id = id) →
      (completeDegraded items id byBody now).1 = none ∧
      (completeConnected items id byBody now).1 = none) := by
  refine ⟨?_, ⟨rfl, rfl⟩, ?_, ?_, ?_⟩
  · intro hnone
    have hf : meds.find? (fun m => m.id == id) = none := by
      rw [List.find?_eq_none]
      intro x hx
      simpa using hnone x hx
    constructor
    · simp only [meditationUpdateHandler, updateFirst_fst, hf]
      rfl
    · have hr := removeFirst_of_none (fun m : MeditationRec => m.id == id)
        meds (by intro x hx; simpa using hnone x hx)
      simp [meditationDeleteHandler, hr]
  · intro hnone
    constructor
    · simp only [getRequestHandler, List.find?_eq_none]
      intro x hx
      simpa using hnone x hx
    · have hr := removeFirst_of_none
        (fun r : MarketplaceRequestRec => r.id == id)
        localReqs (by intro x hx; simpa using hnone x hx)
      simp [deleteRequestHandler, hr]
  · intro hnone
    constructor
    · simp only [getRequestHandler, List.find?_eq_none]
      intro x hx
      simpa using hnone x hx
    · have hr := removeFirst_of_none
        (fun r : MarketplaceRequestRec => r.id == id)
        remoteReqs (by intro x hx; simpa using hnone x hx)
      simp [deleteRequestHandler, hr]
  · intro hnone
    have hf : items.find? (fun it => it.id == id) = none := by
      rw [List.find?_eq_none]
      intro x hx
      simpa using hnone x hx
    constructor
    · rw [completeDegraded, updateFirst_fst, hf]
      rfl
    · rw [completeConnected, updateFirst_fst, hf]
      rfl

/-- Witness for C2 (amended): on empty stores, a connected-mode meditation
delete, a degraded-mode request lookup and a degraded-mode item completion
all report not-found for a missing id. -/
theorem C2_witness :
    (meditationDeleteHandler Mode.connected [] "m1").1 =
      DeleteOutcome.notFound ∧
    getRequestHandler Mode.degraded [] [] "r9" = none ∧
    (completeDegraded [] "i9" none 0).1 = none :=
  ⟨((C2_amended_not_found [] {} 0 [] [] [] none "m1").1 (by simp)).2,
   ((C2_amended_not_found [] {} 0 [] [] [] none "r9").2.2.1 (by simp)).1,
   ((C2_amended_not_found [] {} 0 [] [] [] none "i9").2.2.2.2 (by simp)).1⟩
